import Mathlib

/-!
Verification of the XDP TX driver task
(`src/tools/xdp/s2n-quic-xdp/src/task/tx.rs`).

The driver (`<Tx<N> as Future>::poll`) is a loop of at most 10 iterations.
Each iteration polls the outgoing spsc queue, acquires TX ring capacity,
performs a vectored copy, releases the copied count from ring and queue, and
notifies the notifier.  The queue, ring, and vectored-copy collaborators live
outside this crate; each iteration's collaborator responses are modelled by an
environment `IterEnv`, and the driver's observable actions are recorded in an
event trace.
-/

namespace S2nQuicXdpTx

/-- Result of `spsc::Receiver::poll_slice`: `Poll::Pending`, `Poll::Ready(Err(_))`
(queue closed), or `Poll::Ready(Ok(slice))` carrying `slice.len()`. -/
inductive PollSlice where
  | pending : PollSlice
  | closed : PollSlice
  | ready : Nat → PollSlice
deriving DecidableEq, Repr

/-- Collaborator responses observed by one loop iteration.  `slice` is the
`poll_slice` outcome; `grant` is `ring::Tx::acquire` (granted for a requested
count); `rxSeg`/`txSeg` are the lengths of the two-segment views returned by
`slice.peek()` and `tx.data()`; `notifyEmptyReady` is whether
`notifier.notify_empty(tx, cx)` returns `Poll::Ready`.  The queue, ring and
notifier are external collaborators, so their responses are inputs here. -/
structure IterEnv where
  slice : PollSlice
  grant : Nat → Nat
  rxSeg : Nat × Nat
  txSeg : Nat × Nat
  notifyEmptyReady : Bool

/-- Observable actions of the driver, in program order.  `pollSliceEv r` is a
`poll_slice` call returning `r`; `acquire req granted` is `tx.acquire(req)`
returning `granted`; `copied n` is the return value of `vectored_copy`;
`ringRelease n` is `tx.release(n)`; `queueRelease n` is `outgoing.release(n)`;
`notify n` is `notifier.notify(tx, cx, n)`; `notifyEmpty b` is a
`notifier.notify_empty` call returning ready (`true`) or pending (`false`);
`selfWake` is `cx.waker().wake_by_ref()`. -/
inductive Event where
  | pollSliceEv : PollSlice → Event
  | acquire : Nat → Nat → Event
  | copied : Nat → Event
  | ringRelease : Nat → Event
  | queueRelease : Nat → Event
  | notify : Nat → Event
  | notifyEmpty : Bool → Event
  | selfWake : Event
deriving DecidableEq, Repr

/-- Result of one `poll` resumption: `Poll::Ready(())` (completed),
`Poll::Pending` (suspended), or a fired `debug_assert_ne!(count, 0)`. -/
inductive PollResult where
  | ready : PollResult
  | pending : PollResult
  | assertFailed : PollResult
deriving DecidableEq, Repr

/-- Modelled from the spec: `s2n_quic_core::slice::vectored_copy` is a
collaborator outside `src/`; per the spec it "copies `min(total source length,
total destination length)` records across segment boundaries, returns count
copied".  Arguments are the segment lengths. -/
def vectored_copy (src dst : List Nat) : Nat :=
  min src.sum dst.sum

/-- The copy count produced at an iteration: the source segments come from
`outgoing.slice().peek()` and the destinations from `tx.data()`. -/
def vcCopy (e : IterEnv) : Nat :=
  vectored_copy [e.rxSeg.1, e.rxSeg.2] [e.txSeg.1, e.txSeg.2]

/-- The driver loop `for iteration in 0..10` of `<Tx<N> as Future>::poll`,
with `fuel` the remaining iterations and `i` the absolute iteration index into
the environment.  Mirrors the source: poll the queue (closed → `Ready`,
pending → `Pending`), acquire ring capacity for the slice length, on a zero
grant consult `notify_empty` (ready → `continue`, pending → `Pending`),
otherwise copy, assert the count nonzero, release ring then queue, notify.
When the fuel runs out the driver wakes itself and returns `Pending`. -/
def pollLoop (env : Nat → IterEnv) : Nat → Nat → PollResult × List Event
  | _, 0 => (.pending, [.selfWake])
  | i, fuel + 1 =>
    match (env i).slice with
    | .closed => (.ready, [.pollSliceEv .closed])
    | .pending => (.pending, [.pollSliceEv .pending])
    | .ready len =>
      if (env i).grant len = 0 then
        if (env i).notifyEmptyReady then
          ((pollLoop env (i + 1) fuel).1,
            .pollSliceEv (.ready len) :: .acquire len ((env i).grant len) ::
              .notifyEmpty true :: (pollLoop env (i + 1) fuel).2)
        else
          (.pending,
            [.pollSliceEv (.ready len), .acquire len ((env i).grant len),
              .notifyEmpty false])
      else
        if vcCopy (env i) = 0 then
          (.assertFailed,
            [.pollSliceEv (.ready len), .acquire len ((env i).grant len),
              .copied (vcCopy (env i))])
        else
          ((pollLoop env (i + 1) fuel).1,
            .pollSliceEv (.ready len) :: .acquire len ((env i).grant len) ::
              .copied (vcCopy (env i)) :: .ringRelease (vcCopy (env i)) ::
              .queueRelease (vcCopy (env i)) :: .notify (vcCopy (env i)) ::
              (pollLoop env (i + 1) fuel).2)

/-- One resumption of `<Tx<N> as Future>::poll`: the loop with its cap of 10. -/
def poll (env : Nat → IterEnv) : PollResult × List Event :=
  pollLoop env 0 10

/-- Whether an iteration lets the loop continue to the next iteration
(slice ready, and either a zero grant with a ready notifier, or a nonzero
grant with a nonzero copy count). -/
def iterCont (e : IterEnv) : Bool :=
  match e.slice with
  | .ready len =>
    if e.grant len = 0 then e.notifyEmptyReady else decide (vcCopy e ≠ 0)
  | _ => false

/-- Number of `poll_slice` calls in a trace = number of loop iterations run. -/
def countPolls : List Event → Nat
  | [] => 0
  | .pollSliceEv _ :: rest => countPolls rest + 1
  | _ :: rest => countPolls rest

/-- Checks that every copy is released exactly once with matching counts: each
`copied n` with releases after it is immediately followed by `ringRelease n`,
`queueRelease n`, `notify n` (same `n`), a `copied` without them only occurs
for the failed-assertion count 0, and no release or notify occurs without its
`copied`. -/
def releasesAligned : List Event → Bool
  | .copied n :: .ringRelease n1 :: .queueRelease n2 :: .notify n3 :: rest =>
    decide (n1 = n) && decide (n2 = n) && decide (n3 = n) && releasesAligned rest
  | .copied n :: rest => decide (n = 0) && releasesAligned rest
  | .ringRelease _ :: _ => false
  | .queueRelease _ :: _ => false
  | .notify _ :: _ => false
  | _ :: rest => releasesAligned rest
  | [] => true

/-- Checks the no-overrun bounds at each iteration: the requested count does
not exceed the slice length, the granted count does not exceed the requested
count, and the copied count exceeds neither the grant nor the slice length. -/
def noOverrun : List Event → Bool
  | .pollSliceEv (.ready len) :: .acquire req g :: .copied n :: rest =>
    decide (req ≤ len) && decide (g ≤ req) && decide (n ≤ g) &&
      decide (n ≤ len) && noOverrun rest
  | .pollSliceEv (.ready len) :: .acquire req g :: rest =>
    decide (req ≤ len) && decide (g ≤ req) && noOverrun rest
  | _ :: rest => noOverrun rest
  | [] => true

/-- Scans a trace keeping the counts already released to the ring; every
`notify n` must find `n` among the ring releases that happened strictly
before it. -/
def releasedBeforeNotify : List Nat → List Event → Bool
  | _, [] => true
  | rel, .ringRelease n :: rest => releasedBeforeNotify (n :: rel) rest
  | rel, .notify n :: rest => rel.contains n && releasedBeforeNotify rel rest
  | rel, _ :: rest => releasedBeforeNotify rel rest

/-- Collaborator contracts from the spec: `acquire(requested) -> granted ∈
[0, requested]`; the peeked source segments cover exactly the ready slice;
the `tx.data()` destination views are sized to the granted capacity. -/
def EnvOk (env : Nat → IterEnv) : Prop :=
  ∀ i len, (env i).slice = .ready len →
    (env i).grant len ≤ len ∧
    (env i).rxSeg.1 + (env i).rxSeg.2 = len ∧
    (env i).txSeg.1 + (env i).txSeg.2 = (env i).grant len

/-! ## Notifier implementations

A `Notifier` (trait in the source) is modelled as a pair of transition
functions over its own state `σ`.  The only part of the ring the provided
impls read is `tx.needs_wakeup()`, passed as a `Bool`; observable side effects
are logged as `NEvent`s. -/

/-- Observable notifier side effects: a `worker::Sender::submit(count)` and a
`syscall::wake_tx` attempt carrying its (discarded) success result. -/
inductive NEvent where
  | workerSubmit : Nat → NEvent
  | syscallWake : Bool → NEvent
deriving DecidableEq, Repr

/-- The `Notifier` trait: `notify(&mut self, tx, cx, count)` and
`notify_empty(&mut self, tx, cx) -> Poll<()>` (the `Bool` in the result is
`is_ready`).  The `Bool` argument is `tx.needs_wakeup()`. -/
structure NotifierImpl (σ : Type) where
  notify : σ → Bool → Nat → σ × List NEvent
  notifyEmpty : σ → Bool → σ × Bool × List NEvent

/-- `impl Notifier for ()`: both methods do nothing; `notify_empty` is
always ready. -/
def unitNotifier : NotifierImpl Unit where
  notify s _ _ := (s, [])
  notifyEmpty s _ := (s, true, [])

/-- `impl Notifier for worker::Sender`: `notify` submits `count` to the worker
channel; `notify_empty` has no feedback mechanism and is always ready. -/
def workerSender : NotifierImpl Unit where
  notify s _ count := (s, [.workerSubmit count])
  notifyEmpty s _ := (s, true, [])

/-- `<socket::Fd as Notifier>::notify_empty`: if the ring's needs-wakeup flag
is unset, return ready without a syscall; otherwise issue one `wake_tx`
syscall, log its result, discard it, and return ready.  The state `s : Bool`
is the outcome the syscall would report. -/
def fdNotifyEmpty (s : Bool) : Bool → Bool × Bool × List NEvent
  | false => (s, true, [])
  | true => (s, true, [.syscallWake s])

/-- `impl Notifier for socket::Fd`: `notify` delegates to `notify_empty`,
ignoring the count; `notify_empty` is `fdNotifyEmpty`. -/
def fdNotifier : NotifierImpl Bool where
  notify s w _ := ((fdNotifyEmpty s w).1, (fdNotifyEmpty s w).2.2)
  notifyEmpty s w := fdNotifyEmpty s w

/-- `impl<A: Notifier, B: Notifier> Notifier for (A, B)`: `notify` calls both
constituents with the same count; `notify_empty` calls both (A first, then B,
unconditionally) and is ready iff both results are ready. -/
def pairNotifier {α β : Type} (na : NotifierImpl α) (nb : NotifierImpl β) :
    NotifierImpl (α × β) where
  notify s w c :=
    (((na.notify s.1 w c).1, (nb.notify s.2 w c).1),
      (na.notify s.1 w c).2 ++ (nb.notify s.2 w c).2)
  notifyEmpty s w :=
    (((na.notifyEmpty s.1 w).1, (nb.notifyEmpty s.2 w).1),
      ((na.notifyEmpty s.1 w).2.1 && (nb.notifyEmpty s.2 w).2.1),
      (na.notifyEmpty s.1 w).2.2 ++ (nb.notifyEmpty s.2 w).2.2)

/-! ## Concrete inputs used by witnesses -/

/-- An environment where every iteration has 3 queue items and a ring grant
of 2, so every iteration copies `min 3 2 = 2`. -/
def envAllCopy : Nat → IterEnv := fun _ =>
  { slice := .ready 3, grant := fun r => min r 2, rxSeg := (2, 1),
    txSeg := (1, 1), notifyEmptyReady := true }

/-- An environment whose queue is closed from the start. -/
def envClosed : Nat → IterEnv := fun _ =>
  { slice := .closed, grant := fun _ => 0, rxSeg := (0, 0), txSeg := (0, 0),
    notifyEmptyReady := true }

/-- An environment where the ring always grants 0 and the notifier is ready. -/
def envZeroGrant : Nat → IterEnv := fun _ =>
  { slice := .ready 3, grant := fun _ => 0, rxSeg := (2, 1), txSeg := (0, 0),
    notifyEmptyReady := true }

/-- A contract-violating environment: a nonzero grant but zero-length
destination views, so the vectored copy returns 0. -/
def envBadCopy : Nat → IterEnv := fun _ =>
  { slice := .ready 3, grant := fun r => min r 2, rxSeg := (2, 1),
    txSeg := (0, 0), notifyEmptyReady := true }

/-- A notifier whose `notify_empty` always reports pending (such notifiers
exist behind the trait; used as a concrete probe input). -/
def pendingProbe : NotifierImpl Unit where
  notify s _ _ := (s, [])
  notifyEmpty s _ := (s, false, [])

end S2nQuicXdpTx

namespace S2nQuicXdpTx

theorem vcCopy_eq (e : IterEnv) :
    vcCopy e = min (e.rxSeg.1 + e.rxSeg.2) (e.txSeg.1 + e.txSeg.2) := by
  simp [vcCopy, vectored_copy]

theorem iterCont_false_pending (e : IterEnv) (hs : e.slice = .pending) :
    iterCont e = false := by
  simp [iterCont, hs]

theorem iterCont_false_closed (e : IterEnv) (hs : e.slice = .closed) :
    iterCont e = false := by
  simp [iterCont, hs]

theorem iterCont_true_of_zero (e : IterEnv) (len : Nat) (hs : e.slice = .ready len)
    (hg : e.grant len = 0) (hn : e.notifyEmptyReady = true) : iterCont e = true := by
  simp [iterCont, hs, hg, hn]

theorem iterCont_false_of_zero (e : IterEnv) (len : Nat) (hs : e.slice = .ready len)
    (hg : e.grant len = 0) (hn : e.notifyEmptyReady = false) : iterCont e = false := by
  simp [iterCont, hs, hg, hn]

theorem iterCont_true_of_copy (e : IterEnv) (len : Nat) (hs : e.slice = .ready len)
    (hg : e.grant len ≠ 0) (hc : vcCopy e ≠ 0) : iterCont e = true := by
  simp [iterCont, hs, hg, hc]

theorem iterCont_false_of_badcopy (e : IterEnv) (len : Nat) (hs : e.slice = .ready len)
    (hg : e.grant len ≠ 0) (hc : vcCopy e = 0) : iterCont e = false := by
  simp [iterCont, hs, hg, hc]

theorem iterCont_true_elim (e : IterEnv) (h : iterCont e = true) :
    ∃ len, e.slice = .ready len ∧
      ((e.grant len = 0 ∧ e.notifyEmptyReady = true) ∨
       (e.grant len ≠ 0 ∧ vcCopy e ≠ 0)) := by
  cases hs : e.slice with
  | pending => rw [iterCont_false_pending e hs] at h; exact Bool.noConfusion h
  | closed => rw [iterCont_false_closed e hs] at h; exact Bool.noConfusion h
  | ready len =>
    refine ⟨len, rfl, ?_⟩
    by_cases hg : e.grant len = 0
    · cases hn : e.notifyEmptyReady with
      | true => exact Or.inl ⟨hg, rfl⟩
      | false =>
        rw [iterCont_false_of_zero e len hs hg hn] at h
        exact Bool.noConfusion h
    · by_cases hc : vcCopy e = 0
      · rw [iterCont_false_of_badcopy e len hs hg hc] at h
        exact Bool.noConfusion h
      · exact Or.inr ⟨hg, hc⟩

theorem cont_shift (env : Nat → IterEnv) (i fuel : Nat)
    (h0 : iterCont (env i) = true) :
    (∃ k, k < fuel ∧ (∀ j, j < k → iterCont (env (i + 1 + j)) = true) ∧
       (env (i + 1 + k)).slice = .closed) ↔
    (∃ k, k < fuel + 1 ∧ (∀ j, j < k → iterCont (env (i + j)) = true) ∧
       (env (i + k)).slice = .closed) := by
  constructor
  · rintro ⟨k, hk, hpre, hcl⟩
    refine ⟨k + 1, by omega, ?_, ?_⟩
    · intro j hj
      cases j with
      | zero => simpa using h0
      | succ j' =>
        have hj' : i + (j' + 1) = i + 1 + j' := by omega
        rw [hj']
        exact hpre j' (by omega)
    · have hk' : i + (k + 1) = i + 1 + k := by omega
      rw [hk']; exact hcl
  · rintro ⟨k, hk, hpre, hcl⟩
    cases k with
    | zero =>
      exfalso
      rcases iterCont_true_elim _ h0 with ⟨len, hs, _⟩
      rw [Nat.add_zero] at hcl
      rw [hs] at hcl
      exact PollSlice.noConfusion hcl
    | succ k' =>
      refine ⟨k', by omega, ?_, ?_⟩
      · intro j hj
        have hj' : i + 1 + j = i + (j + 1) := by omega
        rw [hj']; exact hpre (j + 1) (by omega)
      · have hk' : i + 1 + k' = i + (k' + 1) := by omega
        rw [hk']; exact hcl

theorem no_closed_witness (env : Nat → IterEnv) (i fuel : Nat)
    (hc : iterCont (env i) = false)
    (hs : (env i).slice ≠ PollSlice.closed) :
    ¬ ∃ k, k < fuel + 1 ∧ (∀ j, j < k → iterCont (env (i + j)) = true) ∧
        (env (i + k)).slice = PollSlice.closed := by
  rintro ⟨k, hk, hpre, hcl⟩
  cases k with
  | zero => rw [Nat.add_zero] at hcl; exact hs hcl
  | succ k' =>
    have h0 := hpre 0 (by omega)
    rw [Nat.add_zero, hc] at h0
    exact Bool.noConfusion h0

theorem pollLoop_ready_iff (env : Nat → IterEnv) :
    ∀ fuel i, ((pollLoop env i fuel).1 = PollResult.ready ↔
      ∃ k, k < fuel ∧ (∀ j, j < k → iterCont (env (i + j)) = true) ∧
        (env (i + k)).slice = PollSlice.closed) := by
  intro fuel
  induction fuel with
  | zero =>
    intro i
    simp [pollLoop]
  | succ fuel ih =>
    intro i
    cases hs : (env i).slice with
    | closed =>
      have hres : (pollLoop env i (fuel + 1)).1 = .ready := by
        simp [pollLoop, hs]
      rw [hres]
      simp only [true_iff]
      exact ⟨0, by omega, by intro j hj; omega, by rw [Nat.add_zero]; exact hs⟩
    | pending =>
      have hres : (pollLoop env i (fuel + 1)).1 = .pending := by
        simp [pollLoop, hs]
      rw [hres]
      constructor
      · intro h; exact PollResult.noConfusion h
      · intro hex
        exact absurd hex (no_closed_witness env i fuel
          (iterCont_false_pending _ hs) (by rw [hs]; exact fun h => PollSlice.noConfusion h))
    | ready len =>
      by_cases hg : (env i).grant len = 0
      · cases hn : (env i).notifyEmptyReady with
        | true =>
          have h0 : iterCont (env i) = true := iterCont_true_of_zero _ len hs hg hn
          have hstep : (pollLoop env i (fuel + 1)).1 = (pollLoop env (i + 1) fuel).1 := by
            simp [pollLoop, hs, hg, hn]
          rw [hstep, ih (i + 1)]
          exact cont_shift env i fuel h0
        | false =>
          have hres : (pollLoop env i (fuel + 1)).1 = .pending := by
            simp [pollLoop, hs, hg, hn]
          rw [hres]
          constructor
          · intro h; exact PollResult.noConfusion h
          · intro hex
            exact absurd hex (no_closed_witness env i fuel
              (iterCont_false_of_zero _ len hs hg hn)
              (by rw [hs]; exact fun h => PollSlice.noConfusion h))
      · by_cases hc : vcCopy (env i) = 0
        · have hres : (pollLoop env i (fuel + 1)).1 = .assertFailed := by
            simp [pollLoop, hs, hg, hc]
          rw [hres]
          constructor
          · intro h; exact PollResult.noConfusion h
          · intro hex
            exact absurd hex (no_closed_witness env i fuel
              (iterCont_false_of_badcopy _ len hs hg hc)
              (by rw [hs]; exact fun h => PollSlice.noConfusion h))
        · have h0 : iterCont (env i) = true := iterCont_true_of_copy _ len hs hg hc
          have hstep : (pollLoop env i (fuel + 1)).1 = (pollLoop env (i + 1) fuel).1 := by
            simp [pollLoop, hs, hg, hc]
          rw [hstep, ih (i + 1)]
          exact cont_shift env i fuel h0

theorem pollLoop_pending_of (env : Nat → IterEnv) :
    ∀ fuel i k, k < fuel → (∀ j, j < k → iterCont (env (i + j)) = true) →
      (env (i + k)).slice = PollSlice.pending →
      (pollLoop env i fuel).1 = PollResult.pending := by
  intro fuel
  induction fuel with
  | zero => intro i k hk; omega
  | succ fuel ih =>
    intro i k hk hpre hpd
    cases k with
    | zero =>
      rw [Nat.add_zero] at hpd
      simp [pollLoop, hpd]
    | succ k' =>
      have h0 : iterCont (env i) = true := by
        have := hpre 0 (by omega); rwa [Nat.add_zero] at this
      rcases iterCont_true_elim _ h0 with ⟨len, hs, hca⟩
      have hstep : (pollLoop env i (fuel + 1)).1 = (pollLoop env (i + 1) fuel).1 := by
        rcases hca with ⟨hg, hn⟩ | ⟨hg, hc⟩
        · simp [pollLoop, hs, hg, hn]
        · simp [pollLoop, hs, hg, hc]
      rw [hstep]
      refine ih (i + 1) k' (by omega) ?_ ?_
      · intro j hj
        have hj' : i + 1 + j = i + (j + 1) := by omega
        rw [hj']; exact hpre (j + 1) (by omega)
      · have hk' : i + 1 + k' = i + (k' + 1) := by omega
        rw [hk']; exact hpd

theorem countPolls_pollLoop (env : Nat → IterEnv) :
    ∀ fuel i, countPolls (pollLoop env i fuel).2 ≤ fuel := by
  intro fuel
  induction fuel with
  | zero => intro i; simp [pollLoop, countPolls]
  | succ fuel ih =>
    intro i
    cases hs : (env i).slice with
    | closed => simp [pollLoop, hs, countPolls]
    | pending => simp [pollLoop, hs, countPolls]
    | ready len =>
      by_cases hg : (env i).grant len = 0
      · cases hn : (env i).notifyEmptyReady with
        | true =>
          have h1 := ih (i + 1)
          simp [pollLoop, hs, hg, hn, countPolls]
          omega
        | false =>
          simp [pollLoop, hs, hg, hn, countPolls]
      · by_cases hc : vcCopy (env i) = 0
        · simp [pollLoop, hs, hg, hc, countPolls]
        · have h1 := ih (i + 1)
          simp [pollLoop, hs, hg, hc, countPolls]
          omega

theorem pollLoop_all_cont (env : Nat → IterEnv) :
    ∀ fuel i, (∀ j, j < fuel → iterCont (env (i + j)) = true) →
      (pollLoop env i fuel).1 = PollResult.pending ∧
        Event.selfWake ∈ (pollLoop env i fuel).2 := by
  intro fuel
  induction fuel with
  | zero => intro i _; exact ⟨rfl, by simp [pollLoop]⟩
  | succ fuel ih =>
    intro i hall
    have h0 : iterCont (env i) = true := by
      have := hall 0 (by omega); rwa [Nat.add_zero] at this
    rcases iterCont_true_elim _ h0 with ⟨len, hs, hca⟩
    have ihh := ih (i + 1) (by
      intro j hj
      have hj' : i + 1 + j = i + (j + 1) := by omega
      rw [hj']; exact hall (j + 1) (by omega))
    rcases hca with ⟨hg, hn⟩ | ⟨hg, hc⟩
    · exact ⟨by simp [pollLoop, hs, hg, hn, ihh.1],
        by simp [pollLoop, hs, hg, hn, ihh.2]⟩
    · exact ⟨by simp [pollLoop, hs, hg, hc, ihh.1],
        by simp [pollLoop, hs, hg, hc, ihh.2]⟩

theorem releasesAligned_pollLoop (env : Nat → IterEnv) :
    ∀ fuel i, releasesAligned (pollLoop env i fuel).2 = true := by
  intro fuel
  induction fuel with
  | zero => intro i; rfl
  | succ fuel ih =>
    intro i
    cases hs : (env i).slice with
    | closed => simp [pollLoop, hs, releasesAligned]
    | pending => simp [pollLoop, hs, releasesAligned]
    | ready len =>
      by_cases hg : (env i).grant len = 0
      · cases hn : (env i).notifyEmptyReady with
        | true => simp [pollLoop, hs, hg, hn, releasesAligned, ih (i + 1)]
        | false => simp [pollLoop, hs, hg, hn, releasesAligned]
      · by_cases hc : vcCopy (env i) = 0
        · simp [pollLoop, hs, hg, hc, releasesAligned]
        · simp [pollLoop, hs, hg, hc, releasesAligned, ih (i + 1)]

theorem noOverrun_pollLoop (env : Nat → IterEnv) (henv : EnvOk env) :
    ∀ fuel i, noOverrun (pollLoop env i fuel).2 = true := by
  intro fuel
  induction fuel with
  | zero => intro i; rfl
  | succ fuel ih =>
    intro i
    cases hs : (env i).slice with
    | closed => simp [pollLoop, hs, noOverrun]
    | pending => simp [pollLoop, hs, noOverrun]
    | ready len =>
      obtain ⟨hgle, hrx, htx⟩ := henv i len hs
      by_cases hg : (env i).grant len = 0
      · cases hn : (env i).notifyEmptyReady with
        | true => simp [pollLoop, hs, hg, hn, noOverrun, hgle, ih (i + 1)]
        | false => simp [pollLoop, hs, hg, hn, noOverrun, hgle]
      · by_cases hc : vcCopy (env i) = 0
        · simp [pollLoop, hs, hg, hc, noOverrun, hgle]
        · have hcle1 : vcCopy (env i) ≤ (env i).grant len := by
            rw [vcCopy_eq, hrx, htx]; exact Nat.min_le_right _ _
          have hcle2 : vcCopy (env i) ≤ len := by
            rw [vcCopy_eq, hrx, htx]; exact Nat.min_le_left _ _
          simp [pollLoop, hs, hg, hc, noOverrun, hgle, hcle1, hcle2, ih (i + 1)]

theorem releasedBeforeNotify_pollLoop (env : Nat → IterEnv) :
    ∀ fuel i rel, releasedBeforeNotify rel (pollLoop env i fuel).2 = true := by
  intro fuel
  induction fuel with
  | zero => intro i rel; rfl
  | succ fuel ih =>
    intro i rel
    cases hs : (env i).slice with
    | closed => simp [pollLoop, hs, releasedBeforeNotify]
    | pending => simp [pollLoop, hs, releasedBeforeNotify]
    | ready len =>
      by_cases hg : (env i).grant len = 0
      · cases hn : (env i).notifyEmptyReady with
        | true => simp [pollLoop, hs, hg, hn, releasedBeforeNotify, ih (i + 1)]
        | false => simp [pollLoop, hs, hg, hn, releasedBeforeNotify]
      · by_cases hc : vcCopy (env i) = 0
        · simp [pollLoop, hs, hg, hc, releasedBeforeNotify]
        · simp [pollLoop, hs, hg, hc, releasedBeforeNotify, List.contains, ih (i + 1)]

end S2nQuicXdpTx

namespace S2nQuicXdpTx

/-- Claim C1: a resumption of the TX driver's `poll` returns completed
(`Poll::Ready`) iff the queue reports closed at the first non-continuing
iteration within the cap; if that iteration instead reports pending (queue
merely empty) the driver returns suspended; and completion is terminal: a
closed queue reports closed on every later resumption, each of which
therefore completes again. -/
theorem tx_poll_completed_iff_closed (env : Nat → IterEnv) :
    ((poll env).1 = PollResult.ready ↔
      ∃ k, k < 10 ∧ (∀ j, j < k → iterCont (env j) = true) ∧
        (env k).slice = PollSlice.closed) ∧
    (∀ k, k < 10 → (∀ j, j < k → iterCont (env j) = true) →
      (env k).slice = PollSlice.pending → (poll env).1 = PollResult.pending) ∧
    (∀ env' : Nat → IterEnv, (env' 0).slice = PollSlice.closed →
      (poll env').1 = PollResult.ready) := by
  refine ⟨?_, ?_, ?_⟩
  · have h := pollLoop_ready_iff env 10 0
    simpa [poll] using h
  · intro k hk hpre hpd
    exact pollLoop_pending_of env 10 0 k hk
      (fun j hj => by rw [Nat.zero_add]; exact hpre j hj)
      (by rw [Nat.zero_add]; exact hpd)
  · intro env' h0
    simp [poll, pollLoop, h0]

theorem tx_poll_completed_iff_closed_witness :
    (envClosed 0).slice = PollSlice.closed ∧ (poll envClosed).1 = PollResult.ready :=
  ⟨rfl, (tx_poll_completed_iff_closed envClosed).2.2 envClosed rfl⟩

/-- Claim C2 -/
theorem tx_poll_releases_aligned (env : Nat → IterEnv) :
    releasesAligned (poll env).2 = true :=
  releasesAligned_pollLoop env 10 0

/-- Claim C3 -/
theorem tx_poll_no_overrun (env : Nat → IterEnv) (henv : EnvOk env) :
    noOverrun (poll env).2 = true :=
  noOverrun_pollLoop env henv 10 0

theorem tx_poll_no_overrun_witness :
    EnvOk envAllCopy ∧ noOverrun (poll envAllCopy).2 = true := by
  have h : EnvOk envAllCopy := by
    intro i len hs
    injection hs with h'
    subst h'
    exact ⟨(by decide : (envAllCopy 0).grant 3 ≤ 3), rfl, rfl⟩
  exact ⟨h, tx_poll_no_overrun envAllCopy h⟩

/-- Claim C4 -/
theorem tx_poll_release_before_notify (env : Nat → IterEnv) :
    releasedBeforeNotify [] (poll env).2 = true :=
  releasedBeforeNotify_pollLoop env 10 0 []

/-- Claim C5 -/
theorem tx_poll_iteration_cap (env : Nat → IterEnv) :
    countPolls (poll env).2 ≤ 10 ∧
    ((∀ j, j < 10 → iterCont (env j) = true) →
      (poll env).1 = PollResult.pending ∧ Event.selfWake ∈ (poll env).2) := by
  constructor
  · exact countPolls_pollLoop env 10 0
  · intro hall
    exact pollLoop_all_cont env 10 0
      (fun j hj => by rw [Nat.zero_add]; exact hall j hj)

theorem tx_poll_iteration_cap_witness :
    (∀ j, j < 10 → iterCont (envAllCopy j) = true) ∧
    ((poll envAllCopy).1 = PollResult.pending ∧
      Event.selfWake ∈ (poll envAllCopy).2) :=
  ⟨fun j _ => (by decide : iterCont (envAllCopy 0) = true),
    (tx_poll_iteration_cap envAllCopy).2
      (fun j _ => (by decide : iterCont (envAllCopy 0) = true))⟩

/-- Claim C6 -/
theorem tx_zero_grant_retry (env : Nat → IterEnv) (i fuel len : Nat)
    (hs : (env i).slice = .ready len) (hg : (env i).grant len = 0) :
    ((env i).notifyEmptyReady = true →
      pollLoop env i (fuel + 1) =
        ((pollLoop env (i + 1) fuel).1,
          .pollSliceEv (.ready len) :: .acquire len 0 :: .notifyEmpty true ::
            (pollLoop env (i + 1) fuel).2)) ∧
    ((env i).notifyEmptyReady = false →
      pollLoop env i (fuel + 1) =
        (.pending, [.pollSliceEv (.ready len), .acquire len 0,
          .notifyEmpty false])) := by
  constructor
  · intro hn
    simp [pollLoop, hs, hg, hn]
  · intro hn
    simp [pollLoop, hs, hg, hn]

theorem tx_zero_grant_retry_witness :
    (envZeroGrant 0).slice = PollSlice.ready 3 ∧
    (envZeroGrant 0).grant 3 = 0 ∧
    (envZeroGrant 0).notifyEmptyReady = true ∧
    pollLoop envZeroGrant 0 1 =
      (PollResult.pending, [.pollSliceEv (.ready 3), .acquire 3 0,
        .notifyEmpty true, .selfWake]) :=
  ⟨rfl, rfl, rfl, (tx_zero_grant_retry envZeroGrant 0 0 3 rfl rfl).1 rfl⟩

/-- Claim C7 -/
theorem tx_copy_nonzero_guard :
    (∀ e : IterEnv, ∀ len, e.slice = .ready len →
        e.rxSeg.1 + e.rxSeg.2 = len → e.txSeg.1 + e.txSeg.2 = e.grant len →
        len ≠ 0 → e.grant len ≠ 0 → vcCopy e ≠ 0) ∧
    (∀ env : Nat → IterEnv, ∀ i fuel len, (env i).slice = .ready len →
        (env i).grant len ≠ 0 → vcCopy (env i) = 0 →
        (pollLoop env i (fuel + 1)).1 = PollResult.assertFailed) := by
  constructor
  · intro e len hs hrx htx hlen hg
    rw [vcCopy_eq, hrx, htx]
    intro h
    rcases Nat.min_eq_zero_iff.mp h with h' | h'
    · exact hlen h'
    · exact hg h'
  · intro env i fuel len hs hg hc
    simp [pollLoop, hs, hg, hc]

theorem tx_copy_nonzero_guard_witness :
    vcCopy (envAllCopy 0) ≠ 0 ∧
    (pollLoop envBadCopy 0 1).1 = PollResult.assertFailed :=
  ⟨tx_copy_nonzero_guard.1 (envAllCopy 0) 3 rfl rfl rfl (by decide) (by decide),
    tx_copy_nonzero_guard.2 envBadCopy 0 0 3 rfl (by decide) rfl⟩

/-- Claim C8 -/
theorem pair_notifier_broadcast_and_conjunctive {α β : Type}
    (na : NotifierImpl α) (nb : NotifierImpl β) (sa : α) (sb : β)
    (w : Bool) (c : Nat) :
    ((pairNotifier na nb).notify (sa, sb) w c =
      (((na.notify sa w c).1, (nb.notify sb w c).1),
        (na.notify sa w c).2 ++ (nb.notify sb w c).2)) ∧
    (((pairNotifier na nb).notifyEmpty (sa, sb) w).2.1 = true ↔
      ((na.notifyEmpty sa w).2.1 = true ∧ (nb.notifyEmpty sb w).2.1 = true)) := by
  constructor
  · rfl
  · simp [pairNotifier]

/-- Claim C9 -/
theorem fd_notifier_wakeup_policy :
    (∀ s : Bool, fdNotifier.notifyEmpty s false = (s, true, [])) ∧
    (∀ s : Bool,
      fdNotifier.notifyEmpty s true = (s, true, [NEvent.syscallWake s])) ∧
    (∀ (s w : Bool) (c c' : Nat),
      fdNotifier.notify s w c = fdNotifier.notify s w c' ∧
      fdNotifier.notify s w c = ((fdNotifyEmpty s w).1, (fdNotifyEmpty s w).2.2)) :=
  ⟨fun _ => rfl, fun _ => rfl, fun _ _ _ _ => ⟨rfl, rfl⟩⟩

/-- Claim C10 -/
theorem pair_notify_empty_no_short_circuit {α β : Type}
    (na : NotifierImpl α) (nb : NotifierImpl β) (sa : α) (sb : β) (w : Bool)
    (hA : (na.notifyEmpty sa w).2.1 = false) :
    (pairNotifier na nb).notifyEmpty (sa, sb) w =
      (((na.notifyEmpty sa w).1, (nb.notifyEmpty sb w).1), false,
        (na.notifyEmpty sa w).2.2 ++ (nb.notifyEmpty sb w).2.2) := by
  simp [pairNotifier, hA]

theorem pair_notify_empty_no_short_circuit_witness :
    (pendingProbe.notifyEmpty () false).2.1 = false ∧
    (pairNotifier pendingProbe workerSender).notifyEmpty ((), ()) false =
      (((), ()), false, []) :=
  ⟨rfl,
    pair_notify_empty_no_short_circuit pendingProbe workerSender () () false rfl⟩

end S2nQuicXdpTx
